import Mathlib

/-!
Verification development for the chess_opencv robot-mover core:
a shallow embedding of `src/communication_py.py` and `src/movement.py`
(plus the documented semantics of the external python-chess board
operations they call), with theorems checking the specification's
claims about the wire protocol, the command codec, the move
translator, the move identifier and the board reconciler.
-/

set_option autoImplicit false

/-- Piece colors, as in python-chess (`chess.WHITE`, `chess.BLACK`). -/
inductive Color where
  | white
  | black
deriving DecidableEq, Fintype

/-- The opposite color (python-chess `not color`). -/
def Color.other : Color → Color
  | .white => .black
  | .black => .white

/-- Piece types, as in python-chess. -/
inductive PieceType where
  | pawn
  | knight
  | bishop
  | rook
  | queen
  | king
deriving DecidableEq, Fintype

/-- A piece: type and color, as in python-chess `chess.Piece`. -/
structure Piece where
  pieceType : PieceType
  color : Color
deriving DecidableEq

/-- A move: from-square, to-square, optional promotion piece type,
as in python-chess `chess.Move`.  Squares are rank-major integers
0..63 for real squares; the code also passes negative synthetic
off-board slot ids through the same parameters, so squares are `Int`. -/
structure PyMove where
  from_square : Int
  to_square : Int
  promotion : Option PieceType
deriving DecidableEq

/-! ## Embedding of `src/communication_py.py` -/

/-- `DELAY_TIMEOUT_MIN_S = 0.1` (seconds, exact as a rational). -/
def DELAY_TIMEOUT_MIN_S : ℚ := 1 / 10

/-- `DELAY_TIMEOUT_MAX_S = 10`. -/
def DELAY_TIMEOUT_MAX_S : ℚ := 10

/-- `RESPONSE_TIMEOUT = 0`. -/
def RESPONSE_TIMEOUT : Nat := 0

/-- `RESPONSE_SUCCESS = 1`. -/
def RESPONSE_SUCCESS : Nat := 1

/-- The `pieces_white_perspective` dictionary inside `off_board_square`. -/
def pieces_white_perspective : PieceType → Color → Int
  | .rook, .white => -1
  | .bishop, .white => -2
  | .knight, .white => -3
  | .queen, .white => -4
  | .king, .white => -5
  | .pawn, .white => -6
  | .rook, .black => -7
  | .bishop, .black => -8
  | .knight, .black => -9
  | .queen, .black => -10
  | .king, .black => -11
  | .pawn, .black => -12

/-- `off_board_square(piece_type, color, perspective)` from
`communication_py.py`: looks the pair up in the white-perspective
dictionary and, when the perspective is black, flips the two 6-slot
groups.  The Python default argument `perspective=chess.WHITE` is
passed explicitly at every call site of this embedding. -/
def off_board_square (piece_type : PieceType) (color : Color) (perspective : Color) : Int :=
  let piece_value := pieces_white_perspective piece_type color
  if perspective = Color.black then
    if piece_value ≥ -6 then piece_value - 6 else piece_value + 6
  else
    piece_value

/-- Python `int()` applied to a rational: truncation toward zero
(`Int.div` of the reduced numerator by the positive denominator). -/
def pyInt (q : ℚ) : Int :=
  Int.tdiv q.num (q.den : Int)

/-- Python `min` on two numbers. -/
def pyMin (a b : ℚ) : ℚ :=
  if a ≤ b then a else b

/-- Python `max` on two numbers. -/
def pyMax (a b : ℚ) : ℚ :=
  if b ≤ a then a else b

/-- `int(max(min(offset * 100, 100), -100))` from `form_command`. -/
def clampOffset (offset : ℚ) : Int :=
  pyInt (pyMax (pyMin (offset * 100) 100) (-100))

/-- `form_command(from_square, to_square, offset_x, offset_y, perspective)`
from `communication_py.py`, transcribed including the chained comparison
`0 >= from_square <= 63`, which Python evaluates as
`(0 >= from_square) and (from_square <= 63)`. -/
def form_command (from_square to_square : Int) (offset_x offset_y : ℚ)
    (perspective : Color) : Nat :=
  let ox := clampOffset offset_x
  let oy := clampOffset offset_y
  let fs := if perspective = Color.black then
      (if 0 ≥ from_square ∧ from_square ≤ 63 then 63 - from_square else from_square)
    else from_square
  let ts := if perspective = Color.black then
      (if 0 ≥ to_square ∧ to_square ≤ 63 then 63 - to_square else to_square)
    else to_square
  let ox := if perspective = Color.black then -ox else ox
  let oy := if perspective = Color.black then -oy else oy
  let f8 := (fs % 256).toNat
  let t8 := (ts % 256).toNat
  let x8 := (ox % 256).toNat
  let y8 := (oy % 256).toNat
  (f8 <<< 24) ||| (x8 <<< 16) ||| (y8 <<< 8) ||| t8

/-- The data-line bit driven on each of the 16 clock cycles of
`issue_command(command)`: cycle `bit` drives `(command >> (15 - bit)) & 1`. -/
def issued_bits (command : Nat) : List Nat :=
  (List.range 16).map (fun bit => (command >>> (15 - bit)) &&& 1)

/-- The `k` least-significant bits of `c`, most significant first;
`issued_bits c` coincides with `trailing_bits c 16`. -/
def trailing_bits (c : Nat) : Nat → List Nat
  | 0 => []
  | k + 1 => ((c >>> k) &&& 1) :: trailing_bits c k

/-- Reassemble an MSB-first bit list into the value it transmits. -/
def bits_to_nat (bs : List Nat) : Nat :=
  bs.foldl (fun a b => 2 * a + b) 0

/-- `wait_for_signal()` from `communication_py.py`, over an abstract
timeline: `ts` lists the elapsed times at which successive
`line_resp.get_value()` polls would occur, and `low t` tells whether the
acknowledgment line reads low (active) at elapsed time `t`.  The loop
re-checks `elapsed < DELAY_TIMEOUT_MAX_S` before every poll and exits
with `RESPONSE_TIMEOUT` once it fails; an observed low before
`DELAY_TIMEOUT_MIN_S` also returns `RESPONSE_TIMEOUT` (noise), and an
observed low afterwards returns `RESPONSE_SUCCESS`.  The second
component records the times actually sampled. -/
def wait_for_signal (low : ℚ → Bool) : List ℚ → Nat × List ℚ
  | [] => (RESPONSE_TIMEOUT, [])
  | t :: rest =>
    if t < DELAY_TIMEOUT_MAX_S then
      if low t then
        if t < DELAY_TIMEOUT_MIN_S then (RESPONSE_TIMEOUT, [t])
        else (RESPONSE_SUCCESS, [t])
      else
        let r := wait_for_signal low rest
        (r.1, t :: r.2)
    else (RESPONSE_TIMEOUT, [])

/-- The elapsed time of the first poll that observes the acknowledgment
line low, along the same traversal as `wait_for_signal` (polls stop as
soon as a scheduled poll time reaches `DELAY_TIMEOUT_MAX_S`). -/
def first_response_time (low : ℚ → Bool) : List ℚ → Option ℚ
  | [] => none
  | t :: rest =>
    if t < DELAY_TIMEOUT_MAX_S then
      if low t then some t else first_response_time low rest
    else none

/-! ## Board snapshots and the python-chess operations used by `src/movement.py` -/

/-- A python-chess `chess.Board` as `src/movement.py` consumes it: the
occupancy of each square, whose turn it is, and the en-passant target
square, queried through `piece_at`, `is_capture`, `is_en_passant` and
`is_castling`. -/
structure ChessBoardState where
  occ : Int → Option Piece
  turn : Color
  ep_square : Option Int

/-- `chess.Board.piece_at`. -/
def ChessBoardState.piece_at (b : ChessBoardState) (square : Int) : Option Piece :=
  b.occ square

/-- `chess.square_rank(square) = square >> 3`. -/
def square_rank (square : Int) : Int :=
  square / 8

/-- `chess.square_file(square) = square & 7`. -/
def square_file (square : Int) : Int :=
  square % 8

/-- Modelled from the external python-chess library (`chess.Board.is_en_passant`,
which the repository calls but does not contain): the move targets the
en-passant square, a pawn stands on the from-square, the squares differ
by 7 or 9, and the to-square is empty. -/
def ChessBoardState.is_en_passant (b : ChessBoardState) (m : PyMove) : Bool :=
  decide (b.ep_square = some m.to_square) &&
    (match b.occ m.from_square with
      | some p => decide (p.pieceType = PieceType.pawn)
      | none => false) &&
    decide ((m.to_square - m.from_square).natAbs = 7 ∨ (m.to_square - m.from_square).natAbs = 9) &&
    decide (b.occ m.to_square = none)

/-- Modelled from the external python-chess library (`chess.Board.is_capture`):
a square touched by the move carries a piece of the side not to move, or
the move is an en passant.  Note en passant counts as a capture. -/
def ChessBoardState.is_capture (b : ChessBoardState) (m : PyMove) : Bool :=
  (if m.from_square = m.to_square then false
   else
     (match b.occ m.from_square with
       | some p => decide (p.color = b.turn.other)
       | none => false) ||
     (match b.occ m.to_square with
       | some p => decide (p.color = b.turn.other)
       | none => false)) ||
  b.is_en_passant m

/-- Modelled from the external python-chess library (`chess.Board.is_castling`):
a king (of either color) stands on the from-square, and either the king
travels more than one file or the to-square carries a rook of the side
to move. -/
def ChessBoardState.is_castling (b : ChessBoardState) (m : PyMove) : Bool :=
  match b.occ m.from_square with
  | some p =>
      decide (p.pieceType = PieceType.king) &&
        (decide (1 < (square_file m.from_square - square_file m.to_square).natAbs) ||
         decide (b.occ m.to_square = some (Piece.mk PieceType.rook b.turn)))
  | none => false

/-! ## Embedding of `src/movement.py` -/

/-- Modelled from the spec: the `board` module (`RealBoard`, `SQUARE_CENTER`)
is not under src/.  Per the data model, a `RealBoard` holds the logical
occupancy (a `chess.Board`, mutated only by the external game engine),
a per-square sub-square offset table with centered default, and a
perspective flag. -/
structure RealBoard where
  chess_board : ChessBoardState
  offsets : Int → ℚ × ℚ
  perspective : Color

/-- Modelled from the spec: the centered offset `(0, 0)`. -/
def SQUARE_CENTER : ℚ × ℚ := (0, 0)

/-- `RealBoard.piece_at` delegates to the wrapped chess board. -/
def RealBoard.piece_at (b : RealBoard) (square : Int) : Option Piece :=
  b.chess_board.occ square

/-- Read one square's offset. -/
def RealBoard.offset (b : RealBoard) (square : Int) : ℚ × ℚ :=
  b.offsets square

/-- Write one square's offset. -/
def RealBoard.set_offset (b : RealBoard) (square : Int) (v : ℚ × ℚ) : RealBoard :=
  { b with offsets := fun s => if s = square then v else b.offsets s }

/-- Modelled from the spec: the `robot` module is not under src/; its
status constants mirror the link-layer response codes (success / failure
status values, never exceptions). -/
def COMMAND_SUCCESS : Nat := 1

/-- Modelled from the spec: failure status of the `robot` module. -/
def COMMAND_FAILURE : Nat := 0

/-- The outcome of one `move_piece` call: the updated board, the response
code, the log of relocation commands actually issued to the hardware
(each entry a from/to pair handed to `robot.issue_command`) and the
index of the next hardware transaction. -/
structure MoveResult where
  board : RealBoard
  response : Nat
  log : List (Int × Int)
  k : Nat

/-- `move_piece(board, from_square, to_square, prev_response)` from
`src/movement.py`.  The hardware acknowledgment outcome of the `k`-th
`issue_command` of the session is supplied by the environment `resp`;
a previous failure short-circuits: no command is formed or issued and
the previous response is returned unchanged.  On a successful issue the
offsets of both real (0..63) endpoints are reset to `SQUARE_CENTER`. -/
def move_piece (resp : Nat → Nat) (board : RealBoard) (from_square to_square : Int)
    (prev_response : Nat) (k : Nat) : MoveResult :=
  if prev_response = COMMAND_SUCCESS then
    let r := resp k
    if r = COMMAND_SUCCESS then
      let b1 := if 0 ≤ from_square ∧ from_square ≤ 63 then
          board.set_offset from_square SQUARE_CENTER else board
      let b2 := if 0 ≤ to_square ∧ to_square ≤ 63 then
          b1.set_offset to_square SQUARE_CENTER else b1
      MoveResult.mk b2 r [(from_square, to_square)] (k + 1)
    else
      MoveResult.mk board r [(from_square, to_square)] (k + 1)
  else
    MoveResult.mk board prev_response [] k

/-- Chain another `move_piece` step after an accumulated result,
appending its log, exactly as the successive
`response = move_piece(board, ..., response)` lines do. -/
def MoveResult.step (st : MoveResult) (resp : Nat → Nat) (from_square to_square : Int) :
    MoveResult :=
  let r := move_piece resp st.board from_square to_square st.response st.k
  MoveResult.mk r.board r.response (st.log ++ r.log) r.k

/-- `en_passant_captured(move)` from `src/movement.py`. -/
def en_passant_captured (m : PyMove) : Int :=
  let direction : Int := if m.from_square < m.to_square then -8 else 8
  m.to_square + direction

/-- `is_en_passant(board, move)` from `src/movement.py` (the local
heuristic, distinct from the python-chess method): `none` models the
`AttributeError` raised when the from-square is empty. -/
def is_en_passant (b : ChessBoardState) (m : PyMove) : Option Bool :=
  match b.occ m.from_square with
  | none => none
  | some p =>
      some (decide (p.pieceType = PieceType.pawn) &&
        decide ((m.from_square - m.to_square).natAbs = 7 ∨
                (m.from_square - m.to_square).natAbs = 9) &&
        decide (b.occ m.to_square = none))

/-- `castle_rook_move(board, king_move)` from `src/movement.py`.  The
outer `Option` models the `AttributeError` raised when the king-move's
from-square is empty; the inner `Option` is the Python `None` result. -/
def castle_rook_move (b : ChessBoardState) (king_move : PyMove) : Option (Option PyMove) :=
  match b.occ king_move.from_square with
  | none => none
  | some p =>
      some (
        if p.pieceType = PieceType.king ∧ b.is_castling king_move then
          if king_move.to_square = 6 then some (PyMove.mk 7 5 none)
          else if king_move.to_square = 2 then some (PyMove.mk 0 3 none)
          else if king_move.to_square = 62 then some (PyMove.mk 63 61 none)
          else if king_move.to_square = 58 then some (PyMove.mk 56 59 none)
          else none
        else none)

/-- The outcome of `reflect_move`: the board after whatever offset
mutations happened, the returned response (`none` models an uncaught
exception escaping the function), the log of issued relocations and the
next hardware transaction index. -/
structure ReflectResult where
  board : RealBoard
  response : Option Nat
  log : List (Int × Int)
  k : Nat

/-- `reflect_move(board, move)` from `src/movement.py`, transcribed
branch by branch: castling relocates king then rook; otherwise the
capture branch (note python-chess counts en passant as a capture, so it
dereferences `piece_at(to_square)`, which is `None` for en passant — the
`none` response models that `AttributeError`), then the en-passant
branch, then the promotion branch, then the final relocation.  The
`robot.off_board_square` calls omit the perspective argument in the
source, so its Python default `chess.WHITE` is passed here. -/
def reflect_move (resp : Nat → Nat) (board : RealBoard) (move : PyMove) (k : Nat) :
    ReflectResult :=
  if board.chess_board.is_castling move then
    match castle_rook_move board.chess_board move with
    | none => ReflectResult.mk board none [] k
    | some none => ReflectResult.mk board (some COMMAND_FAILURE) [] k
    | some (some rook_move) =>
        let s0 := MoveResult.mk board COMMAND_SUCCESS [] k
        let s1 := s0.step resp move.from_square move.to_square
        let s2 := s1.step resp rook_move.from_square rook_move.to_square
        ReflectResult.mk s2.board (some s2.response) s2.log s2.k
  else
    let s0 := MoveResult.mk board COMMAND_SUCCESS [] k
    let c1 : Option MoveResult :=
      if board.chess_board.is_capture move then
        match board.piece_at move.to_square with
        | none => none
        | some captured_piece =>
            some (s0.step resp move.to_square
              (off_board_square captured_piece.pieceType captured_piece.color Color.white))
      else some s0
    match c1 with
    | none => ReflectResult.mk s0.board none s0.log s0.k
    | some s1 =>
      let c2 : Option MoveResult :=
        if board.chess_board.is_en_passant move then
          match board.piece_at (en_passant_captured move) with
          | none => none
          | some captured_piece =>
              some (s1.step resp (en_passant_captured move)
                (off_board_square captured_piece.pieceType captured_piece.color Color.white))
        else some s1
      match c2 with
      | none => ReflectResult.mk s1.board none s1.log s1.k
      | some s2 =>
        match move.promotion with
        | some promoted =>
            (match board.piece_at move.from_square with
             | none => ReflectResult.mk s2.board none s2.log s2.k
             | some removed_piece =>
                 let s3 := s2.step resp move.from_square
                   (off_board_square removed_piece.pieceType removed_piece.color Color.white)
                 let s4 := s3.step resp
                   (off_board_square promoted removed_piece.color Color.white) move.to_square
                 ReflectResult.mk s4.board (some s4.response) s4.log s4.k)
        | none =>
            let s4 := s2.step resp move.from_square move.to_square
            ReflectResult.mk s4.board (some s4.response) s4.log s4.k

/-- The occupancy diff loop at the top of `identify_move`: squares whose
piece disappeared (piece before, empty now) and squares that appeared or
changed, scanned in `chess.SQUARES` order 0..63. -/
def board_diff (prev_board current_board : ChessBoardState) : List Int × List Int :=
  (List.range 64).foldl
    (fun (acc : List Int × List Int) s =>
      let sq : Int := (s : Int)
      let prev_piece := prev_board.occ sq
      let curr_piece := current_board.occ sq
      if prev_piece ≠ curr_piece then
        if prev_piece ≠ none ∧ curr_piece = none then (acc.1 ++ [sq], acc.2)
        else (acc.1, acc.2 ++ [sq])
      else acc)
    ([], [])

/-- `identify_move(prev_board, current_board)` from `src/movement.py`.
The outer `Option` models an uncaught exception (never reachable given
how the diff lists are built, but transcribed); the inner `Option` is
the Python `None` ("cannot classify") result. -/
def identify_move (prev_board current_board : ChessBoardState) : Option (Option PyMove) :=
  let d := board_diff prev_board current_board
  match d.1, d.2 with
  | [f], [t] =>
      let move := PyMove.mk f t none
      (match is_en_passant prev_board move with
       | none => none
       | some true => some none
       | some false =>
          if prev_board.is_castling move then some none
          else
            match prev_board.occ f with
            | none => none
            | some mover =>
                if mover.pieceType = PieceType.pawn ∧
                    (square_rank t = 0 ∨ square_rank t = 7) then
                  match current_board.occ t with
                  | none => some none
                  | some promotion_piece =>
                      if mover.color ≠ promotion_piece.color then some none
                      else some (some (PyMove.mk f t (some promotion_piece.pieceType)))
                else some (some move))
  | [d0, d1], [a0, a1] =>
      (match prev_board.occ d0 with
       | none => none
       | some p0 =>
        let dis := if p0.pieceType ≠ PieceType.king then (d1, d0) else (d0, d1)
        match current_board.occ a0 with
        | none => none
        | some q0 =>
          let app := if q0.pieceType ≠ PieceType.king then (a1, a0) else (a0, a1)
          let king_move := PyMove.mk dis.1 app.1 none
          let rook_move := PyMove.mk dis.2 app.2 none
          if ¬ prev_board.is_castling king_move then some none
          else
            match prev_board.occ king_move.from_square with
            | none => none
            | some kp =>
                let expected_rook := Piece.mk PieceType.rook kp.color
                if prev_board.occ rook_move.from_square ≠ some expected_rook ∨
                    current_board.occ rook_move.to_square ≠ some expected_rook then
                  some none
                else
                  match castle_rook_move prev_board king_move with
                  | none => none
                  | some rm =>
                      if rm ≠ some rook_move then some none
                      else some (some king_move))
  | [d0, d1], [a0] =>
      let pick : Option (Int × Int) :=
        if prev_board.is_en_passant (PyMove.mk d0 a0 none) then some (d0, d1)
        else if prev_board.is_en_passant (PyMove.mk d1 a0 none) then some (d1, d0)
        else none
      (match pick with
       | none => some none
       | some (pawn_move_from, en_passant_square) =>
          let move := PyMove.mk pawn_move_from a0 none
          if en_passant_captured move ≠ en_passant_square then some none
          else some (some move))
  | _, _ => some none

/-- The claim's description of the one-vacated/one-occupied branch,
written from the spec's words for comparison with `identify_move`:
reject a candidate that satisfies en-passant geometry (a pawn moved
diagonally to an empty previous square) or castling geometry on the
previous snapshot; for a pawn reaching the last rank, demand an
existing, same-colored destination piece and take its type as the
promotion; otherwise return the simple move without promotion.  The
outer `Option` mirrors the (unreachable) exception case of the code. -/
def identify_simple_move_spec (prev_board current_board : ChessBoardState) (f t : Int) :
    Option (Option PyMove) :=
  match prev_board.occ f with
  | none => none
  | some mover =>
      let epGeometry := mover.pieceType = PieceType.pawn ∧
        ((f - t).natAbs = 7 ∨ (f - t).natAbs = 9) ∧ prev_board.occ t = none
      let castleGeometry := prev_board.is_castling (PyMove.mk f t none) = true
      if epGeometry ∨ castleGeometry then some none
      else if mover.pieceType = PieceType.pawn ∧ (square_rank t = 0 ∨ square_rank t = 7) then
        match current_board.occ t with
        | none => some none
        | some dest =>
            if dest.color = mover.color then
              some (some (PyMove.mk f t (some dest.pieceType)))
            else some none
      else some (some (PyMove.mk f t none))

/-! ## Embedding of `iter_reset_board` from `src/movement.py`

The reconciler is invoked repeatedly, once per externally-confirmed
relocation; per the spec the current snapshot reflects each confirmed
relocation before the next call.  The per-call physical occupancy is a
64-entry list (square-indexed); every relocation command is assumed to
succeed, and its physical effect is applied to the occupancy between
calls, which is the charitable reading the termination claim needs. -/

/-- Occupancy of one square of a 64-entry layout. -/
def occGet (layout : List (Option Piece)) (s : Nat) : Option Piece :=
  layout.getD s none

/-- The physical effect of one successful relocation from `origin`
(cleared when it is a real square; off-board otherwise) to `dest`. -/
def applyRelocation (layout : List (Option Piece)) (origin : Option Nat) (dest : Nat)
    (p : Piece) : List (Option Piece) :=
  let cleared := match origin with
    | some s => layout.set s none
    | none => layout
  cleared.set dest (some p)

/-- One call of `iter_reset_board(board, expected_board)`: recompute the
unmatched current and expected mappings and the free-square list in
square order, then run the three passes — direct placement, clearing an
unneeded piece to the first free square, and supplying the first
unmatched target from a matching loose piece or its off-board slot —
performing at most one relocation and returning the updated occupancy
and the Done flag. -/
def iter_reset_board_step (expected current : List (Option Piece)) :
    List (Option Piece) × Bool :=
  let sqs := List.range 64
  let current_positions : List (Nat × Piece) :=
    sqs.filterMap (fun s =>
      match occGet current s with
      | some p => if occGet expected s = some p then none else some (s, p)
      | none => none)
  let expected_positions : List (Nat × Piece) :=
    sqs.filterMap (fun s =>
      match occGet expected s with
      | some p => if occGet current s = some p then none else some (s, p)
      | none => none)
  let empty_squares : List Nat :=
    sqs.filter (fun s =>
      !(current_positions.any (fun cp => cp.1 = s)) &&
      !(expected_positions.any (fun ep => ep.1 = s)))
  match expected_positions.find? (fun ep =>
      current_positions.any (fun cp => cp.2 = ep.2)) with
  | some target =>
      (match current_positions.find? (fun cp => cp.2 = target.2) with
       | some source => (applyRelocation current (some source.1) target.1 target.2, false)
       | none => (current, false))
  | none =>
    match current_positions.find? (fun cp =>
        !(expected_positions.any (fun ep => ep.2 = cp.2))) with
    | some loose =>
        (match empty_squares with
         | temp :: _ => (applyRelocation current (some loose.1) temp loose.2, false)
         | [] =>
           match expected_positions with
           | target :: _ =>
               let origin := (current_positions.find? (fun cp => cp.2 = target.2)).map
                 (fun cp => cp.1)
               (applyRelocation current origin target.1 target.2, false)
           | [] => (expected, true))
    | none =>
      match expected_positions with
      | target :: _ =>
          let origin := (current_positions.find? (fun cp => cp.2 = target.2)).map
            (fun cp => cp.1)
          (applyRelocation current origin target.1 target.2, false)
      | [] => (expected, true)

/-- The occupancy and Done flag after `n` successive calls of
`iter_reset_board` toward a fixed target, starting from `init`
(flag of the most recent call; `false` before any call). -/
def iter_reset_trace (expected init : List (Option Piece)) : Nat → List (Option Piece) × Bool
  | 0 => (init, false)
  | n + 1 => iter_reset_board_step expected (iter_reset_trace expected init n).1

/-- An empty target layout. -/
def emptyLayout : List (Option Piece) := List.replicate 64 none

/-- A single white rook on a1 (square 0), otherwise empty. -/
def rookA1Layout : List (Option Piece) :=
  some (Piece.mk PieceType.rook Color.white) :: List.replicate 63 none

/-- The same rook parked on b1 (square 1). -/
def rookB1Layout : List (Option Piece) :=
  none :: some (Piece.mk PieceType.rook Color.white) :: List.replicate 62 none

/-! ## Auxiliary predicates and concrete scenarios used by the theorems -/

/-- Invariant of a chain of `move_piece` calls threading `response`:
the transaction counter advanced once per logged command, every logged
command except possibly the last was acknowledged with success (a
non-success acknowledgment freezes the chain), and the threaded
response is the acknowledgment of the last logged command. -/
def chainInv (resp : Nat → Nat) (k0 : Nat) (st : MoveResult) : Prop :=
  st.k = k0 + st.log.length ∧
  (∀ i : Nat, i + 1 < st.log.length → resp (k0 + i) = COMMAND_SUCCESS) ∧
  st.response = (if st.log.length = 0 then COMMAND_SUCCESS else resp (k0 + st.log.length - 1))

/-- The short-circuit property claimed for `reflect_move`: every issued
relocation before the last was acknowledged with success, and if the
acknowledgment of any issued relocation is not success then it is the
final one issued (all remaining steps are skipped with no hardware I/O)
and the whole move returns that failure response. -/
def shortCircuitOk (resp : Nat → Nat) (k0 : Nat) (R : ReflectResult) : Prop :=
  (∀ i : Nat, i + 1 < R.log.length → resp (k0 + i) = COMMAND_SUCCESS) ∧
  (∀ i : Nat, i < R.log.length → resp (k0 + i) ≠ COMMAND_SUCCESS →
    i + 1 = R.log.length ∧ R.response = some (resp (k0 + i)))

/-- A hardware environment that acknowledges every command. -/
def allAck : Nat → Nat := fun _ => COMMAND_SUCCESS

/-- A hardware environment that acknowledges the first command and
fails every later one. -/
def failAfterFirst : Nat → Nat := fun i => if i = 0 then COMMAND_SUCCESS else COMMAND_FAILURE

/-- A position with a legal white en passant capture available: white
pawn on e5 (36), black pawn on d5 (35), en-passant target d6 (43),
white to move. -/
def enPassantBoard : RealBoard :=
  RealBoard.mk
    (ChessBoardState.mk
      (fun s =>
        if s = 36 then some (Piece.mk PieceType.pawn Color.white)
        else if s = 35 then some (Piece.mk PieceType.pawn Color.black)
        else none)
      Color.white (some 43))
    (fun _ => SQUARE_CENTER) Color.white

/-- The en passant capture e5xd6. -/
def enPassantMove : PyMove := PyMove.mk 36 43 none

/-- A position where white can castle kingside: king e1 (4), rook h1 (7). -/
def castleBoard : RealBoard :=
  RealBoard.mk
    (ChessBoardState.mk
      (fun s =>
        if s = 4 then some (Piece.mk PieceType.king Color.white)
        else if s = 7 then some (Piece.mk PieceType.rook Color.white)
        else none)
      Color.white none)
    (fun _ => SQUARE_CENTER) Color.white

/-- The castling king move e1-g1. -/
def castleKingMove : PyMove := PyMove.mk 4 6 none

/-- A board whose offsets are all off-center, for the frame witness. -/
def offsetBoard : RealBoard :=
  RealBoard.mk (ChessBoardState.mk (fun _ => none) Color.white none)
    (fun _ => (1, 1)) Color.white

/-- Snapshot before the simple move e2-e4: white pawn on 12. -/
def simplePrev : ChessBoardState :=
  ChessBoardState.mk
    (fun s => if s = 12 then some (Piece.mk PieceType.pawn Color.white) else none)
    Color.white none

/-- Snapshot after the simple move e2-e4: white pawn on 28. -/
def simpleCurr : ChessBoardState :=
  ChessBoardState.mk
    (fun s => if s = 28 then some (Piece.mk PieceType.pawn Color.white) else none)
    Color.black none

/-! ## Theorems -/

/-- Folding the `k` trailing bits of `c` onto an accumulator yields
`acc * 2 ^ k + c mod 2 ^ k`. -/
theorem trailing_bits_fold (c : Nat) : ∀ k acc : Nat,
    List.foldl (fun a b => 2 * a + b) acc (trailing_bits c k) = acc * 2 ^ k + c % 2 ^ k := by
  intro k
  induction k with
  | zero => intro acc; simp [trailing_bits, Nat.mod_one]
  | succ k ih =>
      intro acc
      show List.foldl _ (2 * acc + ((c >>> k) &&& 1)) (trailing_bits c k) = _
      rw [ih, Nat.shiftRight_eq_div_pow, Nat.and_one_is_mod, pow_succ, Nat.mod_mul]
      ring

/-- The zero offset clamps and truncates to the zero percentage. -/
theorem clampOffset_zero : clampOffset 0 = 0 := by
  norm_num [clampOffset, pyMin, pyMax, pyInt]

/-- Claim C1 (amended): `issue_command` transmits the 16 least-significant
bits of the 32-bit command, most-significant of those first — the bit
driven in cycle `i` is bit `15 - i`, so the transmitted 16-bit value is
`command mod 2^16` (the offset-y and to-square fields); the from-square
and offset-x fields in bits 31..16 are dropped. -/
theorem issue_command_transmits_low_half (command : Nat) :
    (issued_bits command).length = 16 ∧
    bits_to_nat (issued_bits command) = command % 65536 := by
  constructor
  · simp [issued_bits]
  · have h2 := trailing_bits_fold command 16 0
    have h3 : bits_to_nat (issued_bits command) =
        List.foldl (fun a b => 2 * a + b) 0 (trailing_bits command 16) := rfl
    rw [h3, h2]
    norm_num

/-- Claim C1 (counterexample): the claim that cycle `i` drives bit
`31 - i` fails at command `2^31`: bit 31 of the command is 1, yet the
first driven bit is 0. -/
theorem issue_command_top_bit_not_sent :
    (issued_bits 2147483648).getD 0 0 = 0 ∧ ((2147483648 >>> 31) &&& 1) = 1 := by
  decide

/-- Claim C2 (code evaluation at the failing inputs): under the black
perspective the codec leaves the in-range squares 1 and 2 unmirrored
(the chained comparison `0 >= from_square <= 63` only holds for squares
at most 0), so the black-perspective encoding of (1, 2) equals the
white-perspective one and differs from the white-perspective encoding
of the mirrored squares (62, 61); and the off-board slot `-1` IS
mirrored by the codec (to `63 - (-1) = 64`) instead of being left
unmirrored as claimed. -/
theorem form_command_mirror_defect :
    form_command 1 2 0 0 Color.black = form_command 1 2 0 0 Color.white ∧
    form_command 1 2 0 0 Color.black ≠ form_command 62 61 0 0 Color.white ∧
    form_command (-1) 5 0 0 Color.black = ((64 <<< 24) ||| 5) ∧
    form_command (-1) 5 0 0 Color.black ≠ ((255 <<< 24) ||| 5) := by
  refine ⟨?_, ?_, ?_, ?_⟩ <;> simp only [form_command, clampOffset_zero] <;> decide

/-- Claim C4 (code evaluation at the failing input): on a legal en
passant capture, python-chess classifies the move as a capture, so the
capture branch of `reflect_move` dereferences `piece_at(to_square)`,
which is `None` — the call raises (response `none`) before issuing a
single relocation, instead of performing the claimed two relocations
and returning a status. -/
theorem reflect_move_en_passant_crashes :
    (reflect_move allAck enPassantBoard enPassantMove 0).response = none ∧
    (reflect_move allAck enPassantBoard enPassantMove 0).log = [] := by
  decide

/-- Claim C6: for each perspective, `off_board_square` restricted to
the 12 piece-type/color pairs is a bijection onto the slot ids
-1..-12 (the image is exactly that 12-element set and the map is
injective), and the black-perspective slot of a pair equals the
white-perspective slot of the same type with the opposite color (the
two 6-slot groups are swapped). -/
theorem off_board_square_bijection :
    (∀ perspective : Color,
      Finset.image (fun pc : PieceType × Color => off_board_square pc.1 pc.2 perspective)
        Finset.univ =
        ({-1, -2, -3, -4, -5, -6, -7, -8, -9, -10, -11, -12} : Finset Int)) ∧
    (∀ perspective : Color, ∀ p q : PieceType × Color,
      off_board_square p.1 p.2 perspective = off_board_square q.1 q.2 perspective → p = q) ∧
    (∀ t : PieceType, ∀ c : Color,
      off_board_square t c Color.black = off_board_square t c.other Color.white) := by
  refine ⟨by decide, by decide, by decide⟩

/-- Claim C6 witness: the injectivity hypothesis discharged at a
concrete pair. -/
theorem off_board_square_bijection_witness :
    (PieceType.rook, Color.white) = (PieceType.rook, Color.white) :=
  off_board_square_bijection.2.1 Color.white (PieceType.rook, Color.white)
    (PieceType.rook, Color.white) (by decide)

/-- One reconciliation call moves the lone unneeded rook from a1 to the
first free square b1 (pass two fires: the target needs nothing, yet the
rook is relocated instead of the call reporting Done). -/
theorem iter_step_rookA1 :
    iter_reset_board_step emptyLayout rookA1Layout = (rookB1Layout, false) := by
  decide

/-- The next call moves the rook straight back from b1 to a1, the first
free square again. -/
theorem iter_step_rookB1 :
    iter_reset_board_step emptyLayout rookB1Layout = (rookA1Layout, false) := by
  decide

/-- The reconciliation trace from the lone-rook layout toward the empty
target oscillates with period two and never reports Done. -/
theorem iter_reset_trace_oscillates (n : Nat) :
    iter_reset_trace emptyLayout rookA1Layout n =
      (if n % 2 = 0 then rookA1Layout else rookB1Layout, false) := by
  induction n with
  | zero => simp [iter_reset_trace]
  | succ n ih =>
      have h2 : n % 2 = 0 ∨ n % 2 = 1 := by omega
      rcases h2 with h | h
      · have h3 : (n + 1) % 2 = 1 := by omega
        rw [iter_reset_trace, ih]
        simp [h, h3, iter_step_rookA1]
      · have h3 : (n + 1) % 2 = 0 := by omega
        rw [iter_reset_trace, ih]
        simp [h, h3, iter_step_rookB1]

/-- Claim C3 (amended): `iter_reset_board` does not in general converge.
When the current layout holds a piece the target needs nowhere and a
free square exists, the clear-obstruction pass relocates that piece to
the first free square on every call — it never parks it off-board and
never reduces the unneeded count — so with a lone white rook on a1 and
an empty target layout the calls shuttle the rook between a1 and b1
forever and Done is never reported. -/
theorem iter_reset_board_never_done (n : Nat) :
    (iter_reset_trace emptyLayout rookA1Layout n).2 = false := by
  rw [iter_reset_trace_oscillates n]

/-- Claim C3 (counterexample): the lone-rook layout differs from the
empty target on exactly one square, yet after 1000 calls — far beyond
any small multiple of that mismatch count — Done is still false. -/
theorem iter_reset_board_unbounded :
    ((List.range 64).filter
        (fun s => decide (occGet rookA1Layout s ≠ occGet emptyLayout s))).length = 1 ∧
    (iter_reset_trace emptyLayout rookA1Layout 1000).2 = false := by
  constructor
  · decide
  · rw [iter_reset_trace_oscillates 1000]

/-- A poll that observes the line low is one of the scheduled polls. -/
theorem first_response_time_mem (low : ℚ → Bool) (ts : List ℚ) (t : ℚ)
    (h : first_response_time low ts = some t) : t ∈ ts := by
  induction ts with
  | nil => simp [first_response_time] at h
  | cons a rest ih =>
      rw [first_response_time] at h
      by_cases hmax : a < DELAY_TIMEOUT_MAX_S
      · rw [if_pos hmax] at h
        by_cases hlow : low a
        · rw [if_pos hlow] at h
          simp at h
          simp [h]
        · rw [if_neg hlow] at h
          exact List.mem_cons_of_mem a (ih h)
      · rw [if_neg hmax] at h
        exact absurd h (by simp)

/-- Claim C5: classification of one send attempt.  If the first poll
that observes the acknowledgment happens at elapsed time `t`, then
`t` is below the maximum timeout, an observation before the minimum
timeout yields `RESPONSE_TIMEOUT` (noise) and one at or after it yields
`RESPONSE_SUCCESS`; if no poll observes the acknowledgment before the
maximum timeout, the result is `RESPONSE_TIMEOUT`. -/
theorem wait_for_signal_classifies (low : ℚ → Bool) (ts : List ℚ) :
    (∀ t : ℚ, first_response_time low ts = some t →
      t < DELAY_TIMEOUT_MAX_S ∧
      (t < DELAY_TIMEOUT_MIN_S → (wait_for_signal low ts).1 = RESPONSE_TIMEOUT) ∧
      (DELAY_TIMEOUT_MIN_S ≤ t → (wait_for_signal low ts).1 = RESPONSE_SUCCESS)) ∧
    (first_response_time low ts = none → (wait_for_signal low ts).1 = RESPONSE_TIMEOUT) := by
  induction ts with
  | nil => simp [first_response_time, wait_for_signal]
  | cons a rest ih =>
      constructor
      · intro t ht
        rw [first_response_time] at ht
        by_cases hmax : a < DELAY_TIMEOUT_MAX_S
        · rw [if_pos hmax] at ht
          by_cases hlow : low a
          · rw [if_pos hlow] at ht
            have hta : t = a := by simpa using ht.symm
            subst hta
            refine ⟨hmax, ?_, ?_⟩
            · intro hmin
              rw [wait_for_signal, if_pos hmax, if_pos hlow, if_pos hmin]
            · intro hmin
              have : ¬ t < DELAY_TIMEOUT_MIN_S := not_lt.mpr hmin
              rw [wait_for_signal, if_pos hmax, if_pos hlow, if_neg this]
          · rw [if_neg hlow] at ht
            have hrec := (ih.1 t ht)
            refine ⟨hrec.1, ?_, ?_⟩
            · intro hmin
              rw [wait_for_signal, if_pos hmax, if_neg hlow]
              exact hrec.2.1 hmin
            · intro hmin
              rw [wait_for_signal, if_pos hmax, if_neg hlow]
              exact hrec.2.2 hmin
        · rw [if_neg hmax] at ht
          exact absurd ht (by simp)
      · intro hn
        rw [first_response_time] at hn
        by_cases hmax : a < DELAY_TIMEOUT_MAX_S
        · rw [if_pos hmax] at hn
          by_cases hlow : low a
          · rw [if_pos hlow] at hn
            exact absurd hn (by simp)
          · rw [if_neg hlow] at hn
            rw [wait_for_signal, if_pos hmax, if_neg hlow]
            exact ih.2 hn
        · rw [wait_for_signal, if_neg hmax]

/-- Claim C5 witness: an acknowledgment first observed at 5 seconds —
inside the plausibility window — yields success. -/
theorem wait_for_signal_classifies_witness :
    (wait_for_signal (fun _ => true) [(5 : ℚ)]).1 = RESPONSE_SUCCESS :=
  ((wait_for_signal_classifies (fun _ => true) [(5 : ℚ)]).1 5
      (by norm_num [first_response_time, DELAY_TIMEOUT_MAX_S])).2.2
    (by norm_num [DELAY_TIMEOUT_MIN_S])

/-- Claim C10: a poll observing the acknowledgment line low before the
minimum timeout ends the attempt at once with `RESPONSE_TIMEOUT`: no
poll after that instant is ever taken (every sampled time is at most
the observation time), even if the line would read low again later
inside the plausibility window. -/
theorem wait_for_signal_noise_consumes (low : ℚ → Bool) (ts : List ℚ) (t : ℚ)
    (hs : ts.Sorted (fun a b => a ≤ b)) (hf : first_response_time low ts = some t)
    (ht : t < DELAY_TIMEOUT_MIN_S) :
    (wait_for_signal low ts).1 = RESPONSE_TIMEOUT ∧
    ∀ u ∈ (wait_for_signal low ts).2, u ≤ t := by
  induction ts with
  | nil => simp [first_response_time] at hf
  | cons a rest ih =>
      rw [first_response_time] at hf
      rw [List.sorted_cons] at hs
      by_cases hmax : a < DELAY_TIMEOUT_MAX_S
      · rw [if_pos hmax] at hf
        by_cases hlow : low a
        · rw [if_pos hlow] at hf
          have hta : t = a := by simpa using hf.symm
          subst hta
          rw [wait_for_signal, if_pos hmax, if_pos hlow, if_pos ht]
          exact ⟨rfl, by simp⟩
        · rw [if_neg hlow] at hf
          have hrec := ih hs.2 hf
          rw [wait_for_signal, if_pos hmax, if_neg hlow]
          refine ⟨hrec.1, ?_⟩
          intro u hu
          simp only [List.mem_cons] at hu
          rcases hu with hu | hu
          · subst hu
            exact hs.1 t (first_response_time_mem low rest t hf)
          · exact hrec.2 u hu
      · rw [if_neg hmax] at hf
        exact absurd hf (by simp)

/-- Claim C10 witness: a noise pulse sampled at 0.05 s consumes the
attempt — the result is failure and the scheduled 5 s poll, which would
have seen a genuine acknowledgment, is never taken. -/
theorem wait_for_signal_noise_consumes_witness :
    (wait_for_signal (fun _ => true) [(1 : ℚ) / 20, 5]).1 = RESPONSE_TIMEOUT ∧
    ∀ u ∈ (wait_for_signal (fun _ => true) [(1 : ℚ) / 20, 5]).2, u ≤ (1 : ℚ) / 20 :=
  wait_for_signal_noise_consumes (fun _ => true) [(1 : ℚ) / 20, 5] ((1 : ℚ) / 20)
    (by norm_num [List.sorted_cons])
    (by norm_num [first_response_time, DELAY_TIMEOUT_MAX_S])
    (by norm_num [DELAY_TIMEOUT_MIN_S])

/-- `move_piece` never touches the logical occupancy or the perspective. -/
theorem move_piece_preserves (resp : Nat → Nat) (board : RealBoard) (f t : Int)
    (prev k : Nat) :
    (move_piece resp board f t prev k).board.chess_board = board.chess_board ∧
    (move_piece resp board f t prev k).board.perspective = board.perspective := by
  simp only [move_piece]
  split_ifs <;> simp [RealBoard.set_offset]

/-- A chained `move_piece` step never touches the logical occupancy or
the perspective. -/
theorem step_preserves (resp : Nat → Nat) (st : MoveResult) (f t : Int) :
    (st.step resp f t).board.chess_board = st.board.chess_board ∧
    (st.step resp f t).board.perspective = st.board.perspective := by
  unfold MoveResult.step
  exact move_piece_preserves resp st.board f t st.response st.k

/-- Rewrite form of `step_preserves` for the occupancy component. -/
theorem step_board_chess (resp : Nat → Nat) (st : MoveResult) (f t : Int) :
    (st.step resp f t).board.chess_board = st.board.chess_board :=
  (step_preserves resp st f t).1

/-- `reflect_move` never mutates the logical occupancy: every branch
only issues commands and re-centers offsets. -/
theorem reflect_move_preserves_chess (resp : Nat → Nat) (board : RealBoard)
    (move : PyMove) (k : Nat) :
    (reflect_move resp board move k).board.chess_board = board.chess_board := by
  unfold reflect_move
  by_cases hc : board.chess_board.is_castling move = true
  · simp only [hc, if_true]
    rcases hcm : castle_rook_move board.chess_board move with _ | rm
    · simp
    · rcases rm with _ | rook_move
      · simp
      · simp [step_board_chess]
  · rw [if_neg hc]
    by_cases hcap : board.chess_board.is_capture move = true
    · simp only [hcap, if_true]
      rcases hocc : board.piece_at move.to_square with _ | cp
      · simp [hocc]
      · simp only [hocc]
        by_cases hep : board.chess_board.is_en_passant move = true
        · simp only [hep, if_true]
          rcases hocc2 : board.piece_at (en_passant_captured move) with _ | cp2
          · simp [hocc2, step_board_chess]
          · simp only [hocc2]
            rcases hpr : move.promotion with _ | promoted
            · simp [step_board_chess]
            · rcases hocc3 : board.piece_at move.from_square with _ | rp
              · simp [hocc3, step_board_chess]
              · simp [hocc3, step_board_chess]
        · simp only [if_neg hep]
          rcases hpr : move.promotion with _ | promoted
          · simp [step_board_chess]
          · rcases hocc3 : board.piece_at move.from_square with _ | rp
            · simp [hocc3, step_board_chess]
            · simp [hocc3, step_board_chess]
    · simp only [if_neg hcap]
      by_cases hep : board.chess_board.is_en_passant move = true
      · simp only [hep, if_true]
        rcases hocc2 : board.piece_at (en_passant_captured move) with _ | cp2
        · simp [hocc2]
        · simp only [hocc2]
          rcases hpr : move.promotion with _ | promoted
          · simp [step_board_chess]
          · rcases hocc3 : board.piece_at move.from_square with _ | rp
            · simp [hocc3, step_board_chess]
            · simp [hocc3, step_board_chess]
      · simp only [if_neg hep]
        rcases hpr : move.promotion with _ | promoted
        · simp [step_board_chess]
        · rcases hocc3 : board.piece_at move.from_square with _ | rp
          · simp [hocc3, step_board_chess]
          · simp [hocc3, step_board_chess]

/-- Claim C8: frame conditions of a single relocation.  `move_piece`
never mutates the logical occupancy (and neither does `reflect_move`;
occupancy is advanced only by the external game engine); on a successful
relocation the offsets of both real (0..63) endpoints are reset to
`SQUARE_CENTER`; on a failed one the board is returned unchanged; and no
offset of any square other than the two endpoints ever changes. -/
theorem move_piece_frame (resp : Nat → Nat) (board : RealBoard) (f t : Int)
    (prev k : Nat) :
    (move_piece resp board f t prev k).board.chess_board = board.chess_board ∧
    ((move_piece resp board f t prev k).response = COMMAND_SUCCESS →
      (0 ≤ f ∧ f ≤ 63 → (move_piece resp board f t prev k).board.offsets f = SQUARE_CENTER) ∧
      (0 ≤ t ∧ t ≤ 63 → (move_piece resp board f t prev k).board.offsets t = SQUARE_CENTER)) ∧
    ((move_piece resp board f t prev k).response ≠ COMMAND_SUCCESS →
      (move_piece resp board f t prev k).board = board) ∧
    (∀ s : Int, s ≠ f → s ≠ t →
      (move_piece resp board f t prev k).board.offsets s = board.offsets s) ∧
    (∀ move : PyMove, ∀ j : Nat,
      (reflect_move resp board move j).board.chess_board = board.chess_board) := by
  refine ⟨(move_piece_preserves resp board f t prev k).1, ?_, ?_, ?_,
    fun move j => reflect_move_preserves_chess resp board move j⟩
  · intro hresp
    by_cases hprev : prev = COMMAND_SUCCESS
    · by_cases hr : resp k = COMMAND_SUCCESS
      · constructor
        · intro hf
          simp [move_piece, hprev, hr, hf, RealBoard.set_offset, SQUARE_CENTER]
          by_cases ht : 0 ≤ t ∧ t ≤ 63 <;> simp [ht]
        · intro ht
          simp [move_piece, hprev, hr, ht, RealBoard.set_offset, SQUARE_CENTER]
      · exfalso
        have : (move_piece resp board f t prev k).response = resp k := by
          simp [move_piece, hprev, hr]
        rw [this] at hresp
        exact hr hresp
    · exfalso
      have : (move_piece resp board f t prev k).response = prev := by
        simp [move_piece, hprev]
      rw [this] at hresp
      exact hprev (hresp ▸ this ▸ rfl)
  · intro hresp
    by_cases hprev : prev = COMMAND_SUCCESS
    · by_cases hr : resp k = COMMAND_SUCCESS
      · exfalso
        have : (move_piece resp board f t prev k).response = resp k := by
          simp [move_piece, hprev, hr]
        exact hresp (this.trans hr)
      · simp [move_piece, hprev, hr]
    · simp [move_piece, hprev]
  · intro s hsf hst
    by_cases hprev : prev = COMMAND_SUCCESS
    · by_cases hr : resp k = COMMAND_SUCCESS
      · simp [move_piece, hprev, hr, RealBoard.set_offset]
        by_cases hf : 0 ≤ f ∧ f ≤ 63 <;> by_cases ht : 0 ≤ t ∧ t ≤ 63 <;>
          simp [hf, ht, RealBoard.set_offset, hsf, hst]
      · simp [move_piece, hprev, hr]
    · simp [move_piece, hprev]

/-- Claim C8 witness: a successful relocation from a1 to b1 re-centers
the a1 offset while leaving an uninvolved square's offset unchanged. -/
theorem move_piece_frame_witness :
    (move_piece allAck offsetBoard 0 1 COMMAND_SUCCESS 0).board.offsets 0 = SQUARE_CENTER ∧
    (move_piece allAck offsetBoard 0 1 COMMAND_SUCCESS 0).board.offsets 5 =
      offsetBoard.offsets 5 :=
  ⟨((move_piece_frame allAck offsetBoard 0 1 COMMAND_SUCCESS 0).2.1 (by decide)).1 (by decide),
   (move_piece_frame allAck offsetBoard 0 1 COMMAND_SUCCESS 0).2.2.2.1 5 (by decide) (by decide)⟩

/-- On a successful threaded response, a chained step issues one more
command: the log grows by the endpoint pair, the response becomes the
fresh acknowledgment, and the transaction counter advances. -/
theorem step_components_success (resp : Nat → Nat) (st : MoveResult) (f t : Int)
    (h : st.response = COMMAND_SUCCESS) :
    (st.step resp f t).log = st.log ++ [(f, t)] ∧
    (st.step resp f t).response = resp st.k ∧
    (st.step resp f t).k = st.k + 1 := by
  unfold MoveResult.step move_piece
  by_cases hr : resp st.k = COMMAND_SUCCESS <;> simp [h, hr]

/-- On a failed threaded response, a chained step is a no-op: nothing
is issued and nothing changes. -/
theorem step_components_failure (resp : Nat → Nat) (st : MoveResult) (f t : Int)
    (h : ¬ st.response = COMMAND_SUCCESS) :
    (st.step resp f t).log = st.log ∧
    (st.step resp f t).response = st.response ∧
    (st.step resp f t).k = st.k := by
  unfold MoveResult.step move_piece
  simp [h]

/-- The empty chain satisfies the chain invariant. -/
theorem chainInv_init (resp : Nat → Nat) (board : RealBoard) (k : Nat) :
    chainInv resp k (MoveResult.mk board COMMAND_SUCCESS [] k) := by
  refine ⟨by simp, ?_, by simp⟩
  intro i hi
  simp at hi

/-- A chained step preserves the chain invariant. -/
theorem chainInv_step (resp : Nat → Nat) (k0 : Nat) (st : MoveResult) (f t : Int)
    (h : chainInv resp k0 st) : chainInv resp k0 (st.step resp f t) := by
  obtain ⟨hk, ha, hr⟩ := h
  by_cases hs : st.response = COMMAND_SUCCESS
  · obtain ⟨hl, hrr, hkk⟩ := step_components_success resp st f t hs
    refine ⟨?_, ?_, ?_⟩
    · rw [hkk, hl, hk]
      simp only [List.length_append, List.length_cons, List.length_nil]
      omega
    · intro i hi
      rw [hl] at hi
      simp at hi
      rcases Nat.lt_or_ge (i + 1) st.log.length with h1 | h1
      · exact ha i h1
      · have hi2 : i + 1 = st.log.length := by omega
        have hlen : st.log.length ≠ 0 := by omega
        rw [hr] at hs
        rw [if_neg hlen] at hs
        have : k0 + i = k0 + st.log.length - 1 := by omega
        rw [this]
        exact hs
    · rw [hrr, hl]
      have hlen : (st.log ++ [(f, t)]).length ≠ 0 := by simp
      rw [if_neg hlen]
      have h2 : k0 + (st.log ++ [(f, t)]).length - 1 = st.k := by
        rw [hk]
        simp only [List.length_append, List.length_cons, List.length_nil]
        omega
      rw [h2]
  · obtain ⟨hl, hrr, hkk⟩ := step_components_failure resp st f t hs
    exact ⟨by rw [hkk, hl]; exact hk, by rw [hl]; exact ha, by rw [hrr, hl]; exact hr⟩

/-- A result whose log and response come from an invariant-satisfying
chain satisfies the short-circuit property. -/
theorem chainInv_shortCircuit (resp : Nat → Nat) (k0 : Nat) (b : RealBoard)
    (st : MoveResult) (h : chainInv resp k0 st) :
    shortCircuitOk resp k0 (ReflectResult.mk b (some st.response) st.log st.k) := by
  obtain ⟨hk, ha, hr⟩ := h
  unfold shortCircuitOk
  constructor
  · intro i hi
    exact ha i hi
  · intro i hi hne
    have hi2 : i + 1 = st.log.length := by
      rcases Nat.lt_or_ge (i + 1) st.log.length with h1 | h1
      · exact absurd (ha i h1) hne
      · simp only [List.length_nil] at hi ⊢
        omega
    refine ⟨hi2, ?_⟩
    have hlen : st.log.length ≠ 0 := by omega
    rw [hr, if_neg hlen]
    have : k0 + st.log.length - 1 = k0 + i := by omega
    rw [this]

/-- A result that issued nothing satisfies the short-circuit property
vacuously. -/
theorem shortCircuitOk_nil (resp : Nat → Nat) (k0 : Nat) (b : RealBoard)
    (r : Option Nat) (k : Nat) :
    shortCircuitOk resp k0 (ReflectResult.mk b r [] k) := by
  unfold shortCircuitOk
  constructor <;> intro i hi <;> simp at hi

/-- A castling classification requires an occupied from-square. -/
theorem is_castling_from_occupied (b : ChessBoardState) (m : PyMove)
    (h : b.is_castling m = true) : b.occ m.from_square ≠ none := by
  intro hn
  unfold ChessBoardState.is_castling at h
  rw [hn] at h
  simp at h

/-- A python-chess en passant demands an empty to-square. -/
theorem is_en_passant_to_empty (b : ChessBoardState) (m : PyMove)
    (h : b.is_en_passant m = true) : b.occ m.to_square = none := by
  unfold ChessBoardState.is_en_passant at h
  simp only [Bool.and_eq_true, decide_eq_true_eq] at h
  exact h.2

/-- python-chess counts en passant as a capture. -/
theorem is_en_passant_is_capture (b : ChessBoardState) (m : PyMove)
    (h : b.is_en_passant m = true) : b.is_capture m = true := by
  unfold ChessBoardState.is_capture
  simp [h]

/-- A crashing `castle_rook_move` means an empty from-square. -/
theorem castle_rook_move_none (b : ChessBoardState) (m : PyMove)
    (h : castle_rook_move b m = none) : b.occ m.from_square = none := by
  rcases hocc : b.occ m.from_square with _ | p
  · rfl
  · unfold castle_rook_move at h
    rw [hocc] at h
    simp at h

/-- Claim C7: `reflect_move` short-circuits on the first failure.  For
every multi-relocation decomposition, all issued relocations except
possibly the last were acknowledged with success; if any issued
relocation's acknowledgment is not success, it is the last one issued —
every remaining step is skipped with no hardware I/O attempted — and
the whole move returns that failure.  (The hypothesis only demands that
a promotion move's from-square be occupied, which holds for every legal
promotion.) -/
theorem reflect_move_short_circuits (resp : Nat → Nat) (board : RealBoard) (move : PyMove)
    (k : Nat)
    (hprom : move.promotion ≠ none → board.chess_board.occ move.from_square ≠ none) :
    (∀ i : Nat, i + 1 < (reflect_move resp board move k).log.length →
      resp (k + i) = COMMAND_SUCCESS) ∧
    (∀ i : Nat, i < (reflect_move resp board move k).log.length →
      resp (k + i) ≠ COMMAND_SUCCESS →
      i + 1 = (reflect_move resp board move k).log.length ∧
      (reflect_move resp board move k).response = some (resp (k + i))) := by
  suffices h : shortCircuitOk resp k (reflect_move resp board move k) from h
  unfold reflect_move
  by_cases hc : board.chess_board.is_castling move = true
  · simp only [hc, if_true]
    rcases hcm : castle_rook_move board.chess_board move with _ | rm
    · exact absurd (castle_rook_move_none _ _ hcm) (is_castling_from_occupied _ _ hc)
    · rcases rm with _ | rook_move
      · simp only []
        exact shortCircuitOk_nil resp k board (some COMMAND_FAILURE) k
      · simp only []
        apply chainInv_shortCircuit
        apply chainInv_step
        apply chainInv_step
        exact chainInv_init resp board k
  · rw [if_neg hc]
    by_cases hcap : board.chess_board.is_capture move = true
    · simp only [hcap, if_true]
      rcases hocc : board.piece_at move.to_square with _ | cp
      · simp only [hocc]
        exact shortCircuitOk_nil resp k board none k
      · simp only [hocc]
        by_cases hep : board.chess_board.is_en_passant move = true
        · exfalso
          have hempty := is_en_passant_to_empty _ _ hep
          unfold RealBoard.piece_at at hocc
          rw [hempty] at hocc
          exact Option.noConfusion hocc
        · simp only [if_neg hep]
          rcases hpr : move.promotion with _ | promoted
          · simp only []
            apply chainInv_shortCircuit
            apply chainInv_step
            apply chainInv_step
            exact chainInv_init resp board k
          · rcases hocc3 : board.piece_at move.from_square with _ | rp
            · exfalso
              have := hprom (by rw [hpr]; exact Option.noConfusion)
              unfold RealBoard.piece_at at hocc3
              exact this hocc3
            · simp only [hocc3]
              apply chainInv_shortCircuit
              apply chainInv_step
              apply chainInv_step
              apply chainInv_step
              exact chainInv_init resp board k
    · simp only [if_neg hcap]
      by_cases hep : board.chess_board.is_en_passant move = true
      · exact absurd (is_en_passant_is_capture _ _ hep) hcap
      · simp only [if_neg hep]
        rcases hpr : move.promotion with _ | promoted
        · simp only []
          apply chainInv_shortCircuit
          apply chainInv_step
          exact chainInv_init resp board k
        · rcases hocc3 : board.piece_at move.from_square with _ | rp
          · exfalso
            have := hprom (by rw [hpr]; exact Option.noConfusion)
            unfold RealBoard.piece_at at hocc3
            exact this hocc3
          · simp only [hocc3]
            apply chainInv_shortCircuit
            apply chainInv_step
            apply chainInv_step
            exact chainInv_init resp board k

/-- Claim C7 witness: in a kingside castle where the link acknowledges
the king relocation but fails the rook relocation, the failing step is
the last one issued and the whole move reports the failure. -/
theorem reflect_move_short_circuits_witness :
    1 + 1 = (reflect_move failAfterFirst castleBoard castleKingMove 0).log.length ∧
    (reflect_move failAfterFirst castleBoard castleKingMove 0).response =
      some (failAfterFirst (0 + 1)) :=
  (reflect_move_short_circuits failAfterFirst castleBoard castleKingMove 0 (by decide)).2 1
    (by decide) (by decide)

/-- Claim C9: on a diff with exactly one vacated and one occupied
square, `identify_move` behaves exactly as the claim describes (stated
by `identify_simple_move_spec`): it rejects candidates satisfying
en-passant or castling geometry on the previous snapshot; for a pawn
reaching the last rank it demands an existing, same-colored destination
piece, whose type becomes the promotion; otherwise it returns the
simple move without promotion. -/
theorem identify_move_simple (prev_board current_board : ChessBoardState) (f t : Int)
    (h : board_diff prev_board current_board = ([f], [t])) :
    identify_move prev_board current_board =
      identify_simple_move_spec prev_board current_board f t := by
  unfold identify_move
  rw [h]
  rcases hocc : prev_board.occ f with _ | mover
  · simp [identify_simple_move_spec, is_en_passant, hocc]
  · simp only [identify_simple_move_spec, is_en_passant, hocc]
    by_cases h1 : mover.pieceType = PieceType.pawn
    · by_cases h2 : (f - t).natAbs = 7 ∨ (f - t).natAbs = 9
      · by_cases h3 : prev_board.occ t = none
        · simp [h1, h2, h3]
        · by_cases hcast : prev_board.is_castling (PyMove.mk f t none) = true
          · simp [h1, h2, h3, hcast]
          · by_cases hr : square_rank t = 0 ∨ square_rank t = 7
            · rcases hc2 : current_board.occ t with _ | dest
              · simp [h1, h2, h3, hcast, hr, hc2, hocc]
              · by_cases hcol : mover.color = dest.color
                · simp [h1, h2, h3, hcast, hr, hc2, hocc, hcol]
                · simp [h1, h2, h3, hcast, hr, hc2, hocc, hcol, Ne.symm hcol]
            · simp [h1, h2, h3, hcast, hr, hocc]
      · by_cases hcast : prev_board.is_castling (PyMove.mk f t none) = true
        · simp [h1, h2, hcast]
        · by_cases hr : square_rank t = 0 ∨ square_rank t = 7
          · rcases hc2 : current_board.occ t with _ | dest
            · simp [h1, h2, hcast, hr, hc2, hocc]
            · by_cases hcol : mover.color = dest.color
              · simp [h1, h2, hcast, hr, hc2, hocc, hcol]
              · simp [h1, h2, hcast, hr, hc2, hocc, hcol, Ne.symm hcol]
          · simp [h1, h2, hcast, hr, hocc]
    · by_cases hcast : prev_board.is_castling (PyMove.mk f t none) = true
      · simp [h1, hcast]
      · simp [h1, hcast, hocc]

/-- Claim C9 witness: the plain pawn push e2-e4 between two snapshots is
identified as the simple move (12, 28) with no promotion. -/
theorem identify_move_simple_witness :
    identify_move simplePrev simpleCurr = some (some (PyMove.mk 12 28 none)) :=
  (identify_move_simple simplePrev simpleCurr 12 28 (by decide)).trans (by decide)
